import Mathlib

/-!
Verification development for the Caro_AI repository (src/app.py).

The source is a single Streamlit script.  We shallowly embed the pure logic
of its functions; the external generative service is modelled as an opaque
behaviour of type `Except Unit String`: `.error ()` means the call itself
raised an exception, `.ok t` means it returned the text payload `t`
(the spec treats the service as "an opaque call returning a text payload").
UI widgets (`st.warning`, `st.info`, ...) are modelled by booleans or fields
of result structures recording what was shown.
-/

/-- Whitespace stripped by Python's `str.strip()` (ASCII whitespace; exotic
Unicode space characters are outside the model, no claim depends on them). -/
def isPyWs (c : Char) : Bool :=
  c = ' ' || c = '\t' || c = '\n' || c = '\r' || c = '\x0b' || c = '\x0c'

/-- List-level version of Python `str.strip()`: drop leading and trailing
whitespace. -/
def stripL (l : List Char) : List Char :=
  ((l.dropWhile isPyWs).reverse.dropWhile isPyWs).reverse

/-- Python `str.strip()` on strings. -/
def pyStrip (s : String) : String := ⟨stripL s.data⟩

/-- Splitting on a single separator character, as Python's
`str.split(',')`: separators delimit fields, empty fields are kept, the
empty input gives one empty field. -/
def pySplitAux (sep : Char) : List Char → List Char → List (List Char)
  | [], acc => [acc.reverse]
  | c :: r, acc =>
    if c = sep then acc.reverse :: pySplitAux sep r []
    else pySplitAux sep r (c :: acc)

/-- Python `input.split(sep)` for a one-character separator. -/
def pySplit (sep : Char) (s : String) : List String :=
  (pySplitAux sep s.data []).map (fun l => (⟨l⟩ : String))

/-- Match a literal list of characters at the front of the input, returning
the remainder on success (the building block for the regex literals the
source uses). -/
def eatLit : List Char → List Char → Option (List Char)
  | [], l => some l
  | _ :: _, [] => none
  | c :: p, d :: l => if c = d then eatLit p l else none

/-- Model of `re.sub(r"```json|```", "", text)`: scan left to right, at each
position first try to delete the literal "```json", then "```", otherwise
keep the character.  Fuel-indexed; fuel `length + 1` always suffices since
every step consumes at least one character. -/
def fenceSub : Nat → List Char → List Char
  | 0, l => l
  | _ + 1, [] => []
  | f + 1, c :: rest =>
    match eatLit "```json".data (c :: rest) with
    | some r => fenceSub f r
    | none =>
      match eatLit "```".data (c :: rest) with
      | some r => fenceSub f r
      | none => c :: fenceSub f rest

/-- String-level fence removal. -/
def pyFenceSub (s : String) : String := ⟨fenceSub (s.data.length + 1) s.data⟩

/-- The normalisation every gateway call site applies to the service reply:
`text = response.text.strip()` followed by
`text = re.sub(r"```json|```", "", text).strip()`. -/
def cleanReply (t : String) : String := pyStrip (pyFenceSub (pyStrip t))

/-- Python `"\n".join(links)`. -/
def pyJoin : List String → String
  | [] => ""
  | [s] => s
  | s :: t :: r => s ++ "\n" ++ pyJoin (t :: r)

/-- Python values produced by `json.loads` (plus the non-standard `NaN`,
`Infinity`, `-Infinity` that Python's parser accepts by default).  Numbers
are represented by their rational value; Python's int/float distinction is
irrelevant to every modelled behaviour (only truthiness and dict lookup by
string key are ever used). -/
inductive JVal : Type where
  | null : JVal
  | bool (b : Bool) : JVal
  | num (q : Rat) : JVal
  | inf (neg : Bool) : JVal
  | nan : JVal
  | str (s : String) : JVal
  | arr (xs : List JVal) : JVal
  | obj (kvs : List (String × JVal)) : JVal

/-- JSON whitespace accepted between tokens by Python's `json.loads`. -/
def isJsonWs (c : Char) : Bool :=
  c = ' ' || c = '\t' || c = '\n' || c = '\r'

/-- Skip JSON whitespace. -/
def skipWs (l : List Char) : List Char := l.dropWhile isJsonWs

/-- Value of a hexadecimal digit, if the character is one. -/
def hexVal (c : Char) : Option Nat :=
  if '0' ≤ c ∧ c ≤ '9' then some (c.toNat - 48)
  else if 'a' ≤ c ∧ c ≤ 'f' then some (c.toNat - 87)
  else if 'A' ≤ c ∧ c ≤ 'F' then some (c.toNat - 55)
  else none

/-- Single-character JSON string escapes. -/
def escChar (e : Char) : Option Char :=
  if e = 'n' then some '\n'
  else if e = 't' then some '\t'
  else if e = 'r' then some '\r'
  else if e = '"' then some '"'
  else if e = '\\' then some '\\'
  else if e = '/' then some '/'
  else if e = 'b' then some '\x08'
  else if e = 'f' then some '\x0c'
  else none

/-- Body of a JSON string literal (opening quote already consumed); `acc`
holds the characters read so far, reversed.  Unescaped control characters
are rejected as in Python's strict mode.  `\uXXXX` escapes become the
character with that code (surrogate pairs are not recombined; no claim
involves them). -/
def parseJStrAux : Nat → List Char → List Char → Option (String × List Char)
  | 0, _, _ => none
  | _ + 1, _, [] => none
  | f + 1, acc, c :: r =>
    if c = '"' then some (⟨acc.reverse⟩, r)
    else if c = '\\' then
      match r with
      | 'u' :: a :: b :: cc :: d :: r2 =>
        match hexVal a, hexVal b, hexVal cc, hexVal d with
        | some ha, some hb, some hc, some hd =>
          parseJStrAux f (Char.ofNat (ha * 4096 + hb * 256 + hc * 16 + hd) :: acc) r2
        | _, _, _, _ => none
      | e :: r2 =>
        match escChar e with
        | some ec => parseJStrAux f (ec :: acc) r2
        | none => none
      | [] => none
    else if c.toNat < 32 then none
    else parseJStrAux f (c :: acc) r

/-- Decimal digits at the front of the input, as numeric values. -/
def readDigits (l : List Char) : List Nat × List Char :=
  ((l.takeWhile Char.isDigit).map (fun c => c.toNat - 48), l.dropWhile Char.isDigit)

/-- Value of a big-endian digit list. -/
def digitsToNat (ds : List Nat) : Nat := ds.foldl (fun a d => a * 10 + d) 0

/-- Fraction and exponent tail of a JSON number, given the sign and the
integer-part digits.  Mirrors the optional groups `(\.\d+)?([eE][-+]?\d+)?`
of Python's number tokenizer: a group that does not match consumes
nothing. -/
def parseNumTail (neg : Bool) (intDs : List Nat) (l : List Char) : JVal × List Char :=
  let (fds, l1) :=
    match l with
    | '.' :: r =>
      (match readDigits r with
       | ([], _) => (([] : List Nat), '.' :: r)
       | (ds, r2) => (ds, r2))
    | _ => ([], l)
  let (expVal, l2) :=
    match l1 with
    | 'e' :: r | 'E' :: r =>
      (match r with
       | '+' :: r2 =>
         (match readDigits r2 with
          | ([], _) => ((0 : Int), l1)
          | (ds, r3) => ((digitsToNat ds : Int), r3))
       | '-' :: r2 =>
         (match readDigits r2 with
          | ([], _) => ((0 : Int), l1)
          | (ds, r3) => (-(digitsToNat ds : Int), r3))
       | _ =>
         (match readDigits r with
          | ([], _) => ((0 : Int), l1)
          | (ds, r3) => ((digitsToNat ds : Int), r3)))
    | _ => ((0 : Int), l1)
  let base : Int := (if neg then -1 else 1) * (digitsToNat (intDs ++ fds) : Int)
  (JVal.num ((base : Rat) * (10 : Rat) ^ (expVal - (fds.length : Int))), l2)

/-- A JSON number: optional minus sign, then `0` or a nonzero-led digit run
(Python rejects leading zeros by simply not consuming the following digits,
which then fail in the surrounding context), then the optional fraction and
exponent. -/
def parseNum (l : List Char) : Option (JVal × List Char) :=
  let (neg, l1) := match l with | '-' :: r => (true, r) | _ => (false, l)
  match l1 with
  | c :: r =>
    if c = '0' then some (parseNumTail neg [0] r)
    else if c.isDigit then
      match readDigits (c :: r) with
      | (ds, r2) => some (parseNumTail neg ds r2)
    else none
  | [] => none

mutual

/-- Model of the value grammar of Python's `json.loads` (strict mode, plus
the default `NaN`/`Infinity`/`-Infinity` constants).  Fuel-indexed; every
recursive call follows the consumption of at least one character, so fuel
`length + 1` always suffices. -/
def parseValue : Nat → List Char → Option (JVal × List Char)
  | 0, _ => none
  | f + 1, l =>
    let l1 := skipWs l
    match l1 with
    | '"' :: r =>
      (match parseJStrAux (r.length + 1) [] r with
       | none => none
       | some (s, r2) => some (JVal.str s, r2))
    | '{' :: r =>
      (match skipWs r with
       | '}' :: r2 => some (JVal.obj [], r2)
       | _ =>
         match parseMembers f r with
         | none => none
         | some (kvs, r2) => some (JVal.obj kvs, r2))
    | '[' :: r =>
      (match skipWs r with
       | ']' :: r2 => some (JVal.arr [], r2)
       | _ =>
         match parseElems f r with
         | none => none
         | some (vs, r2) => some (JVal.arr vs, r2))
    | _ =>
      match eatLit "true".data l1 with
      | some r => some (JVal.bool true, r)
      | none =>
      match eatLit "false".data l1 with
      | some r => some (JVal.bool false, r)
      | none =>
      match eatLit "null".data l1 with
      | some r => some (JVal.null, r)
      | none =>
      match eatLit "NaN".data l1 with
      | some r => some (JVal.nan, r)
      | none =>
      match eatLit "Infinity".data l1 with
      | some r => some (JVal.inf false, r)
      | none =>
      match eatLit "-Infinity".data l1 with
      | some r => some (JVal.inf true, r)
      | none => parseNum l1

/-- Comma-separated array elements, terminated by `]`. -/
def parseElems : Nat → List Char → Option (List JVal × List Char)
  | 0, _ => none
  | f + 1, l =>
    match parseValue f l with
    | none => none
    | some (v, r) =>
      match skipWs r with
      | ',' :: r2 =>
        (match parseElems f r2 with
         | none => none
         | some (vs, r3) => some (v :: vs, r3))
      | ']' :: r2 => some ([v], r2)
      | _ => none

/-- Comma-separated object members, terminated by `}`.  The raw key/value
pairs are kept in source order; `pyGet` below looks up the last binding of
a key, matching the way `json.loads` lets later duplicate keys win. -/
def parseMembers : Nat → List Char → Option (List (String × JVal) × List Char)
  | 0, _ => none
  | f + 1, l =>
    match skipWs l with
    | '"' :: r =>
      (match parseJStrAux (r.length + 1) [] r with
       | none => none
       | some (k, r2) =>
         match skipWs r2 with
         | ':' :: r3 =>
           (match parseValue f r3 with
            | none => none
            | some (v, r4) =>
              match skipWs r4 with
              | ',' :: r5 =>
                (match parseMembers f r5 with
                 | none => none
                 | some (kvs, r6) => some ((k, v) :: kvs, r6))
              | '}' :: r5 => some ([(k, v)], r5)
              | _ => none)
         | _ => none)
    | _ => none

end

/-- Model of `json.loads`: parse one value and require only whitespace to
remain.  `none` models a raised `JSONDecodeError`. -/
def json_loads (s : String) : Option JVal :=
  match parseValue (s.length + 1) s.data with
  | some (v, rest) => if (skipWs rest).isEmpty then some v else none
  | none => none

/-- Python truthiness of a parsed JSON value (`if career_advice:` etc.). -/
def pyTruthy : JVal → Bool
  | JVal.null => false
  | JVal.bool b => b
  | JVal.num q => decide (q ≠ 0)
  | JVal.inf _ => true
  | JVal.nan => true
  | JVal.str s => !s.isEmpty
  | JVal.arr xs => !xs.isEmpty
  | JVal.obj kvs => !kvs.isEmpty

/-- Python `dict.get(k, d)` on the member list produced by the parser:
the last binding of a duplicated key wins, as in `json.loads`. -/
def pyGet (kvs : List (String × JVal)) (k : String) (d : JVal) : JVal :=
  match kvs.reverse.find? (fun p => p.1 = k) with
  | some p => p.2
  | none => d

/-- The shape check of `extract_skills`:
`isinstance(skills, list) and all(isinstance(s, str) for s in skills)`. -/
def isStrList : JVal → Bool
  | JVal.arr xs => xs.all (fun x => match x with | JVal.str _ => true | _ => false)
  | _ => false

/-- Exceptions that can escape a modelled call site.  `unboundLocal` is
Python's `UnboundLocalError`, raised when a warning f-string reads the
`response` variable although the assignment to it never ran. -/
inductive PyExn : Type where
  | unboundLocal : PyExn

/-- Model of `extract_skills` (src/app.py lines 48-70).  Input: the service
behaviour for the one `model.generate_content` call.  Output: `.ok (v, w)`
where `v` is the returned Python value (always a list; modelled as a
`JVal`) and `w` records whether `st.warning` ran — or `.error e` when an
exception escapes the function.  When the service call itself raises, the
`except` handler's f-string reads `response.text`, but `response` was never
assigned and (unlike the other three call sites) there is no
`'response' in locals()` guard, so `UnboundLocalError` escapes. -/
def extract_skills (svc : Except Unit String) : Except PyExn (JVal × Bool) :=
  match svc with
  | Except.error _ => Except.error PyExn.unboundLocal
  | Except.ok replyText =>
    match json_loads (cleanReply replyText) with
    | none => Except.ok (JVal.arr [], true)
    | some v =>
      if isStrList v then Except.ok (v, false)
      else Except.ok (JVal.arr [], true)

/-- Model of `generate_roadmap` (src/app.py lines 75-105).  Output: the
returned pair (the values of `data.get("career_advice", "")` and
`data.get("roadmap_svg", "")`, or the fallback `("", "")`) together with a
flag recording whether the `st.warning` of the `except` branch ran.  Its
`except` branch guards the f-string with `'response' in locals()`, so no
exception escapes; when the parsed value is not a dict, `data.get` raises
`AttributeError`, which the same branch catches. -/
def generate_roadmap (svc : Except Unit String) : (JVal × JVal) × Bool :=
  match svc with
  | Except.error _ => ((JVal.str "", JVal.str ""), true)
  | Except.ok replyText =>
    match json_loads (cleanReply replyText) with
    | none => ((JVal.str "", JVal.str ""), true)
    | some (JVal.obj kvs) =>
      ((pyGet kvs "career_advice" (JVal.str ""), pyGet kvs "roadmap_svg" (JVal.str "")), false)
    | some _ => ((JVal.str "", JVal.str ""), true)

/-- The loop of `generate_roadmap_with_retry` abstracted over the pair each
attempt produces: `attempt` is the index of the next attempt, the second
argument the number of attempts still allowed.  The returned `Nat` counts
how many calls to `generate_roadmap` were made. -/
def retryLoop (results : Nat → JVal × JVal) (attempt : Nat) : Nat → (JVal × JVal) × Nat
  | 0 => ((JVal.str "", JVal.str ""), attempt)
  | n + 1 =>
    let r := results attempt
    if pyTruthy r.1 then (r, attempt + 1)
    else retryLoop results (attempt + 1) n

/-- Model of `generate_roadmap_with_retry` (src/app.py lines 110-116):
`for attempt in range(retries + 1)` around `generate_roadmap`, returning at
the first attempt whose `career_advice` is truthy and falling back to
`("", "")` after the loop.  `svc i` is the service behaviour of the
`i`-th call; the returned `Nat` instruments the number of calls made. -/
def generate_roadmap_with_retry (svc : Nat → Except Unit String) (retries : Nat) :
    (JVal × JVal) × Nat :=
  retryLoop (fun i => (generate_roadmap (svc i)).1) 0 (retries + 1)

/-- Model of `skill_gap_analysis` (src/app.py lines 121-141).  Returns
whatever `json.loads` produced (of any shape) or the fallback `{}`; the
flag records whether the `except` branch's `st.warning` ran.  The f-string
there is guarded by `'response' in locals()`, so nothing escapes. -/
def skill_gap_analysis (svc : Except Unit String) : JVal × Bool :=
  match svc with
  | Except.error _ => (JVal.obj [], true)
  | Except.ok replyText =>
    match json_loads (cleanReply replyText) with
    | none => (JVal.obj [], true)
    | some v => (v, false)

/-- A character of the regex class `[\w-]` (ASCII view of Python's `\w`;
the claims never involve non-ASCII word characters). -/
def isWordChar (c : Char) : Bool :=
  c.isAlphanum || c = '_' || c = '-'

/-- Structure of one match of the source's course-link regex
`https?://(?:www\.)?(?:youtube\.com|youtu\.be)/(?:watch\?v=|playlist\?list=)[\w-]+`. -/
structure YtMatch : Type where
  secure : Bool
  www : Bool
  hostYt : Bool
  watch : Bool
  vid : List Char

/-- The text a `YtMatch` stands for. -/
def YtMatch.render (m : YtMatch) : List Char :=
  "http".data ++ (if m.secure then ['s'] else []) ++ "://".data ++
  (if m.www then "www.".data else []) ++
  (if m.hostYt then "youtube.com".data else "youtu.be".data) ++
  "/".data ++ (if m.watch then "watch?v=".data else "playlist?list=".data) ++ m.vid

/-- An optional literal (regex `(?:lit)?`): consume it if present. -/
def eatOpt (p l : List Char) : Bool × List Char :=
  match eatLit p l with
  | some r => (true, r)
  | none => (false, l)

/-- A two-way literal alternation (regex `(?:p|q)`), `p` tried first;
`true` records that `p` matched. -/
def eatAlt (p q l : List Char) : Option (Bool × List Char) :=
  match eatLit p l with
  | some r => some (true, r)
  | none =>
    match eatLit q l with
    | some r => some (false, r)
    | none => none

/-- Try to match the course-link regex at the start of the input.  Every
alternation in the pattern is first-character disjoint from what follows
it, so the committed choices below are equivalent to the backtracking
regex engine. -/
def ytMatchAt (l : List Char) : Option (YtMatch × List Char) :=
  match eatLit "http".data l with
  | none => none
  | some l1 =>
    match eatOpt ['s'] l1 with
    | (secure, l2) =>
      match eatLit "://".data l2 with
      | none => none
      | some l3 =>
        match eatOpt "www.".data l3 with
        | (www, l4) =>
          match eatAlt "youtube.com".data "youtu.be".data l4 with
          | none => none
          | some (hostYt, l5) =>
            match eatLit "/".data l5 with
            | none => none
            | some l6 =>
              match eatAlt "watch?v=".data "playlist?list=".data l6 with
              | none => none
              | some (watch, l7) =>
                match l7.takeWhile isWordChar with
                | [] => none
                | c :: cs =>
                  some (⟨secure, www, hostYt, watch, c :: cs⟩, l7.dropWhile isWordChar)

/-- Model of `re.findall` with the course-link pattern: left-to-right scan,
non-overlapping leftmost matches.  Fuel-indexed; fuel `length + 1` always
suffices because each step consumes at least one character. -/
def ytFindall : Nat → List Char → List String
  | 0, _ => []
  | _ + 1, [] => []
  | f + 1, c :: rest =>
    match ytMatchAt (c :: rest) with
    | some (m, r) => (⟨m.render⟩ : String) :: ytFindall f r
    | none => ytFindall f rest

/-- Does `needle` occur as a contiguous segment of `hay`? -/
def segIn (needle : List Char) : List Char → Bool
  | [] => needle.isEmpty
  | c :: rest => needle.isPrefixOf (c :: rest) || segIn needle rest

/-- Python `"sub" in u` substring test. -/
def pyIn (sub u : String) : Bool := segIn sub.data u.data

/-- Python `list(set(xs))`.  CPython's set iteration order is unspecified;
we model it as first-occurrence deduplication — every claim about the
result is order-insensitive (distinctness and membership only). -/
def pyListSet (xs : List String) : List String := xs.dedup

/-- Model of `recommend_courses` (src/app.py lines 146-158): `re.findall`
over the raw reply text, the `"youtube.com" in u or "youtu.be" in u`
filter, then `list(set(...))`.  The flag records whether the `except`
branch's `st.warning` ran (its f-string is guarded, so nothing escapes). -/
def recommend_courses (svc : Except Unit String) : List String × Bool :=
  match svc with
  | Except.error _ => ([], true)
  | Except.ok replyText =>
    let urls := ytFindall (replyText.data.length + 1) replyText.data
    (pyListSet (urls.filter (fun u => pyIn "youtube.com" u || pyIn "youtu.be" u)), false)

/-- What `display_courses_with_qr` renders: which widgets ran and with what
payloads. -/
structure DisplayResult : Type where
  infoShown : Bool
  qrEncoded : Bool
  qrPayload : Option String
  downloadName : Option String
  downloadMime : Option String
deriving DecidableEq

/-- Model of `display_courses_with_qr` (src/app.py lines 160-173): an empty
list renders an informational message only; otherwise the links are joined
with newlines and, if the joined string is truthy, encoded as a QR image
with a download button (fixed filename and MIME type). -/
def display_courses_with_qr (video_links : List String) : DisplayResult :=
  if video_links.isEmpty then
    { infoShown := true, qrEncoded := false, qrPayload := none,
      downloadName := none, downloadMime := none }
  else
    let merged := pyJoin video_links
    if !merged.isEmpty then
      { infoShown := false, qrEncoded := true, qrPayload := some merged,
        downloadName := some "courses_qr.png", downloadMime := some "image/png" }
    else
      { infoShown := false, qrEncoded := false, qrPayload := none,
        downloadName := none, downloadMime := none }

/-- Behaviour of the `pdfplumber` interaction for one file: the page texts
successfully yielded (`none` for a page whose `extract_text()` returned
`None`) before the interaction either finishes or raises. -/
structure PdfBehaviour : Type where
  pages : List (Option String)
  raises : Bool

/-- An uploaded file: its declared media type together with what each
extraction library would do on it. -/
structure UploadedFile : Type where
  type : String
  pdf : PdfBehaviour
  docx : Except Unit String

/-- Text accumulated by the page loop of `parse_resume`:
`if page_text: text += page_text + "\n"` appends only when `page_text` is
truthy, so a page whose `extract_text()` returned `None` (`none` in the
model) or the empty string (`some ""`) contributes nothing. -/
def pdfText (pages : List (Option String)) : String :=
  pages.foldl
    (fun acc p =>
      match p with
      | some t => if t.isEmpty then acc else acc ++ t ++ "\n"
      | none => acc) ""

/-- Model of `parse_resume` (src/app.py lines 26-43).  Returns the text and
whether a warning ran.  Both `try` blocks catch every exception, so the
function itself never raises: a PDF failure yields the text accumulated so
far, a DOCX failure leaves `text` at its initial `""`; any other declared
media type returns `""` untouched. -/
def parse_resume (file : UploadedFile) : String × Bool :=
  if file.type = "application/pdf" then
    (pdfText file.pdf.pages, file.pdf.raises)
  else if file.type = "application/vnd.openxmlformats-officedocument.wordprocessingml.document"
       || file.type = "application/msword" then
    match file.docx with
    | Except.ok t => (t, false)
    | Except.error _ => ("", true)
  else ("", false)

/-- Model of the manual-skills line (src/app.py line 227):
`[s.strip() for s in manual_skills_input.split(',') if s.strip()]`. -/
def manualSkills (input : String) : List String :=
  ((pySplit ',' input).map pyStrip).filter (fun s => !s.isEmpty)

/-- How many times each generative-service call site runs. -/
structure PlanCalls : Type where
  roadmap : Nat
  gap : Nat
  courses : Nat
  extraction : Nat
deriving DecidableEq

/-- Model of the plan-generation action (src/app.py lines 236-244): the
branch guarded by
`if st.button(...) and name and domain and skills:`.  When the guard
passes, the body first re-checks `if not skills: st.stop()` (dead code
under the guard) and then performs the roadmap retry wrapper, one
skill-gap call and one course-recommendation call; skill extraction is
never called from this branch.  When the guard fails, nothing runs. -/
def planBranch (pressed : Bool) (name domain : String) (skills : List String)
    (svc : Nat → Except Unit String) : PlanCalls :=
  if pressed && !name.isEmpty && !domain.isEmpty && !skills.isEmpty then
    if skills.isEmpty then { roadmap := 0, gap := 0, courses := 0, extraction := 0 }
    else
      { roadmap := (generate_roadmap_with_retry svc 2).2, gap := 1, courses := 1,
        extraction := 0 }
  else { roadmap := 0, gap := 0, courses := 0, extraction := 0 }

/-- A string matching the YouTube-style URL pattern of `recommend_courses`:
it is exactly the rendering of some match of the regex, with a non-empty
identifier made of word characters. -/
def YtUrlShape (u : String) : Prop :=
  ∃ m : YtMatch, m.vid ≠ [] ∧ (∀ c ∈ m.vid, isWordChar c = true) ∧ u = (⟨m.render⟩ : String)

/-- The first character, if any, is not whitespace. -/
def noLeadWs (s : String) : Prop := ∀ c, s.data.head? = some c → isPyWs c = false

/-- The last character, if any, is not whitespace. -/
def noTrailWs (s : String) : Prop := ∀ c, s.data.getLast? = some c → isPyWs c = false

/-! Helper lemmas -/

theorem eatLit_eq (p : List Char) :
    ∀ l r, eatLit p l = some r → l = p ++ r := by
  induction p with
  | nil => intro l r h; simpa [eatLit] using h
  | cons c p ih =>
    intro l r h
    cases l with
    | nil => simp [eatLit] at h
    | cons d l =>
      by_cases hcd : c = d
      · subst hcd
        simp only [eatLit, if_pos rfl] at h
        simpa using ih l r h
      · simp [eatLit, hcd] at h

theorem eatOpt_eq (p l : List Char) (b : Bool) (r : List Char)
    (h : eatOpt p l = (b, r)) : l = (if b then p else []) ++ r := by
  unfold eatOpt at h
  cases heq : eatLit p l with
  | none =>
    rw [heq] at h
    obtain ⟨rfl, rfl⟩ := Prod.mk.inj h
    simp
  | some r2 =>
    rw [heq] at h
    obtain ⟨rfl, rfl⟩ := Prod.mk.inj h
    simpa using eatLit_eq p l r2 heq

theorem eatAlt_eq (p q l : List Char) (b : Bool) (r : List Char)
    (h : eatAlt p q l = some (b, r)) : l = (if b then p else q) ++ r := by
  unfold eatAlt at h
  cases heq : eatLit p l with
  | some r2 =>
    rw [heq] at h
    obtain ⟨rfl, rfl⟩ := Prod.mk.inj (Option.some.inj h)
    simpa using eatLit_eq p l r2 heq
  | none =>
    rw [heq] at h
    cases heq2 : eatLit q l with
    | some r2 =>
      rw [heq2] at h
      obtain ⟨rfl, rfl⟩ := Prod.mk.inj (Option.some.inj h)
      simpa using eatLit_eq q l r2 heq2
    | none => rw [heq2] at h; cases h

theorem ytMatchAt_eq (l : List Char) (m : YtMatch) (rest : List Char)
    (h : ytMatchAt l = some (m, rest)) :
    l = m.render ++ rest ∧ m.vid ≠ [] ∧ ∀ c ∈ m.vid, isWordChar c = true := by
  unfold ytMatchAt at h
  cases h1 : eatLit "http".data l with
  | none => simp only [h1] at h; exact Option.noConfusion h
  | some l1 =>
  simp only [h1] at h
  cases h2 : eatOpt ['s'] l1 with
  | mk secure l2 =>
  simp only [h2] at h
  cases h3 : eatLit "://".data l2 with
  | none => simp only [h3] at h; exact Option.noConfusion h
  | some l3 =>
  simp only [h3] at h
  cases h4 : eatOpt "www.".data l3 with
  | mk www l4 =>
  simp only [h4] at h
  cases h5 : eatAlt "youtube.com".data "youtu.be".data l4 with
  | none => simp only [h5] at h; exact Option.noConfusion h
  | some p5 =>
  obtain ⟨hostYt, l5⟩ := p5
  simp only [h5] at h
  cases h6 : eatLit "/".data l5 with
  | none => simp only [h6] at h; exact Option.noConfusion h
  | some l6 =>
  simp only [h6] at h
  cases h7 : eatAlt "watch?v=".data "playlist?list=".data l6 with
  | none => simp only [h7] at h; exact Option.noConfusion h
  | some p7 =>
  obtain ⟨watch, l7⟩ := p7
  simp only [h7] at h
  cases h8 : l7.takeWhile isWordChar with
  | nil => simp only [h8] at h; exact Option.noConfusion h
  | cons c cs =>
  simp only [h8] at h
  obtain ⟨hm, hrest⟩ := Prod.mk.inj (Option.some.inj h)
  subst hm
  subst hrest
  have e1 := eatLit_eq _ _ _ h1
  have e2 := eatOpt_eq _ _ _ _ h2
  have e3 := eatLit_eq _ _ _ h3
  have e4 := eatOpt_eq _ _ _ _ h4
  have e5 := eatAlt_eq _ _ _ _ _ h5
  have e6 := eatLit_eq _ _ _ h6
  have e7 := eatAlt_eq _ _ _ _ _ h7
  have e8 : l7 = (c :: cs) ++ l7.dropWhile isWordChar := by
    conv_lhs => rw [← List.takeWhile_append_dropWhile isWordChar l7]
    rw [h8]
  refine ⟨?_, by simp, ?_⟩
  · subst e1; subst e2; subst e3; subst e4; subst e5; subst e6; subst e7
    conv_lhs => rw [e8]
    simp [YtMatch.render, List.append_assoc]
  · intro x hx
    rw [← h8] at hx
    exact List.mem_takeWhile_imp hx

theorem ytFindall_mem (fuel : Nat) :
    ∀ (l : List Char) (u : String), u ∈ ytFindall fuel l → YtUrlShape u := by
  induction fuel with
  | zero => intro l u h; simp [ytFindall] at h
  | succ f ih =>
    intro l u h
    cases l with
    | nil => simp [ytFindall] at h
    | cons c rest =>
      unfold ytFindall at h
      cases hm : ytMatchAt (c :: rest) with
      | some p =>
        obtain ⟨m, r⟩ := p
        simp only [hm] at h
        rcases List.mem_cons.1 h with h | h
        · exact ⟨m, (ytMatchAt_eq _ _ _ hm).2.1, (ytMatchAt_eq _ _ _ hm).2.2, h⟩
        · exact ih r u h
      | none =>
        simp only [hm] at h
        exact ih rest u h

theorem dropWhile_getLast? {α} (p : α → Bool) (l : List α)
    (h : l.dropWhile p ≠ []) : (l.dropWhile p).getLast? = l.getLast? := by
  induction l with
  | nil => simp at h
  | cons a t ih =>
    rw [List.dropWhile_cons] at h ⊢
    by_cases hp : p a
    · rw [if_pos hp] at h ⊢
      have ht : t ≠ [] := by
        intro he
        subst he
        simp at h
      rw [ih h]
      cases t with
      | nil => exact absurd rfl ht
      | cons b t2 => simp
    · rw [if_neg hp] at h ⊢

theorem dropWhile_head? {α} (p : α → Bool) (l : List α) :
    ∀ c, (l.dropWhile p).head? = some c → p c = false := by
  intro c hc
  have := List.head?_dropWhile_not p l
  rw [hc] at this
  exact this

theorem stripL_noLead (l : List Char) :
    ∀ c, (stripL l).head? = some c → isPyWs c = false := by
  intro c hc
  unfold stripL at hc
  rw [List.head?_reverse] at hc
  have hne : (l.dropWhile isPyWs).reverse.dropWhile isPyWs ≠ [] := by
    intro he
    rw [he] at hc
    exact Option.noConfusion hc
  rw [dropWhile_getLast? _ _ hne] at hc
  rw [List.getLast?_reverse] at hc
  exact dropWhile_head? _ _ c hc

theorem stripL_noTrail (l : List Char) :
    ∀ c, (stripL l).getLast? = some c → isPyWs c = false := by
  intro c hc
  unfold stripL at hc
  rw [List.getLast?_reverse] at hc
  exact dropWhile_head? _ _ c hc

theorem retryLoop_spec (results : Nat → JVal × JVal) :
    ∀ (n start : Nat),
      (retryLoop results start n).2 ≤ start + n ∧
      ((∃ j, start ≤ j ∧ j < start + n ∧ pyTruthy (results j).1 = true ∧
          (∀ i, start ≤ i → i < j → pyTruthy (results i).1 = false) ∧
          retryLoop results start n = (results j, j + 1)) ∨
        ((∀ i, start ≤ i → i < start + n → pyTruthy (results i).1 = false) ∧
          retryLoop results start n = ((JVal.str "", JVal.str ""), start + n))) := by
  intro n
  induction n with
  | zero =>
    intro start
    refine ⟨by simp [retryLoop], Or.inr ⟨fun i h1 h2 => by omega, by simp [retryLoop]⟩⟩
  | succ k ih =>
    intro start
    by_cases hp : pyTruthy (results start).1 = true
    · have h2 : retryLoop results start (k + 1) = (results start, start + 1) := by
        simp [retryLoop, hp]
      refine ⟨by rw [h2]; omega, Or.inl ⟨start, le_refl _, by omega, hp,
        fun i h1 hlt => by omega, h2⟩⟩
    · have hp' : pyTruthy (results start).1 = false := by
        cases hq : pyTruthy (results start).1
        · rfl
        · exact absurd hq hp
      have h2 : retryLoop results start (k + 1) = retryLoop results (start + 1) k := by
        simp [retryLoop, hp']
      obtain ⟨iha, ihb⟩ := ih (start + 1)
      refine ⟨by rw [h2]; omega, ?_⟩
      rcases ihb with ⟨j, hj1, hj2, hjt, hjmin, heq⟩ | ⟨hall, heq⟩
      · refine Or.inl ⟨j, by omega, by omega, hjt, ?_, by rw [h2]; exact heq⟩
        intro i hi1 hi2
        rcases Nat.eq_or_lt_of_le hi1 with hcase | hcase
        · exact hcase ▸ hp'
        · exact hjmin i (by omega) hi2
      · refine Or.inr ⟨?_, ?_⟩
        · intro i hi1 hi2
          rcases Nat.eq_or_lt_of_le hi1 with hcase | hcase
          · exact hcase ▸ hp'
          · exact hall i (by omega) (by omega)
        · rw [h2, heq]
          congr 1
          omega
      

theorem pyJoin_isEmpty_eq_false (l : List String) (h1 : l ≠ []) (h2 : l ≠ [""]) :
    (pyJoin l).isEmpty = false := by
  cases l with
  | nil => exact absurd rfl h1
  | cons s t =>
    cases t with
    | nil =>
      have hs : s ≠ "" := by intro he; subst he; exact h2 rfl
      show s.isEmpty = false
      cases hq : s.isEmpty
      · rfl
      · exact absurd ((String.isEmpty_iff s).1 hq) hs
    | cons t2 r =>
      show (s ++ "\n" ++ pyJoin (t2 :: r)).isEmpty = false
      cases hq : (s ++ "\n" ++ pyJoin (t2 :: r)).isEmpty
      · rfl
      · exfalso
        have he := (String.isEmpty_iff _).1 hq
        have hd : (s ++ "\n" ++ pyJoin (t2 :: r)).data =
            s.data ++ '\n' :: (pyJoin (t2 :: r)).data := by
          simp [String.data_append]
        rw [he] at hd
        exact absurd hd.symm (by simp)

theorem strList_shape (xs : List JVal)
    (h : xs.all (fun x => match x with | JVal.str _ => true | _ => false) = true) :
    ∃ l : List String, xs = l.map JVal.str := by
  induction xs with
  | nil => exact ⟨[], rfl⟩
  | cons x t ih =>
    rw [List.all_cons] at h
    obtain ⟨hx, ht⟩ := Bool.and_eq_true_iff.1 h
    cases x with
    | str s =>
      obtain ⟨l, hl⟩ := ih ht
      exact ⟨s :: l, by rw [hl]; rfl⟩
    | null => simp at hx
    | bool b => simp at hx
    | num q => simp at hx
    | inf b => simp at hx
    | nan => simp at hx
    | arr ys => simp at hx
    | obj kvs => simp at hx

theorem isStrList_shape (v : JVal) (h : isStrList v = true) :
    ∃ l : List String, v = JVal.arr (l.map JVal.str) := by
  cases v with
  | arr xs =>
    obtain ⟨l, hl⟩ := strList_shape xs (by simpa [isStrList] using h)
    exact ⟨l, by rw [hl]⟩
  | null => simp [isStrList] at h
  | bool b => simp [isStrList] at h
  | num q => simp [isStrList] at h
  | inf b => simp [isStrList] at h
  | nan => simp [isStrList] at h
  | str s => simp [isStrList] at h
  | obj kvs => simp [isStrList] at h

/-! Claim theorems -/

theorem guarded_sites_fallback :
    generate_roadmap (Except.error ()) = ((JVal.str "", JVal.str ""), true) ∧
    skill_gap_analysis (Except.error ()) = (JVal.obj [], true) ∧
    recommend_courses (Except.error ()) = ([], true) :=
  ⟨rfl, rfl, rfl⟩

/-- C2: the claim says every generative-service behaviour is handled locally
at all four gateway call sites and no exception ever propagates out.  The
code violates this in `extract_skills`: when the service call itself raises,
the except-handler's warning f-string reads `response.text` although the
assignment to `response` never ran (there is no `'response' in locals()`
guard, unlike the other three call sites), so an `UnboundLocalError`
escapes the call site.  This theorem evaluates the model at that failing
input. -/
theorem claim_c2_extract_skills_raises :
    extract_skills (Except.error ()) = Except.error PyExn.unboundLocal := rfl

/-- C4: with an empty skills list, the plan-generation branch (the block
gated by `if st.button(...) and name and domain and skills:` at
src/app.py lines 236-244) performs none of the four generative-service
calls, whatever the button state, name, domain and service behaviour. -/
theorem claim_c4_empty_skills_no_calls (pressed : Bool) (name domain : String)
    (svc : Nat → Except Unit String) :
    planBranch pressed name domain [] svc =
      { roadmap := 0, gap := 0, courses := 0, extraction := 0 } := by
  simp [planBranch]

/-- C6 counterexample: the claim says every non-empty list is joined and
encoded as a QR image, but the non-empty list `[""]` joins to the falsy
empty string and the renderer skips the QR encoding entirely. -/
theorem claim_c6_counterexample :
    ([""] : List String) ≠ [] ∧ (display_courses_with_qr [""]).qrEncoded = false :=
  ⟨by decide, rfl⟩

/-- C6 (amended): the empty list shows an informational message and encodes
nothing; every non-empty list other than `[""]` (equivalently: whose
newline-join is non-empty) is joined with newlines, encoded as a QR image,
and offered for download as `courses_qr.png` with MIME type `image/png`. -/
theorem claim_c6_qr_renderer (links : List String) :
    display_courses_with_qr [] =
      { infoShown := true, qrEncoded := false, qrPayload := none,
        downloadName := none, downloadMime := none } ∧
    (links ≠ [] → links ≠ [""] →
      display_courses_with_qr links =
        { infoShown := false, qrEncoded := true, qrPayload := some (pyJoin links),
          downloadName := some "courses_qr.png", downloadMime := some "image/png" }) := by
  refine ⟨rfl, ?_⟩
  intro h1 h2
  have hne : links.isEmpty = false := by
    cases links with
    | nil => exact absurd rfl h1
    | cons a t => rfl
  have hj := pyJoin_isEmpty_eq_false links h1 h2
  simp [display_courses_with_qr, hne, hj]

/-- C6 witness: the amended theorem applied at the concrete list
`["a", "b"]`. -/
theorem claim_c6_qr_renderer_witness :
    display_courses_with_qr ["a", "b"] =
      { infoShown := false, qrEncoded := true, qrPayload := some "a\nb",
        downloadName := some "courses_qr.png", downloadMime := some "image/png" } := by
  have h := (claim_c6_qr_renderer ["a", "b"]).2 (by decide) (by decide)
  exact h.trans (by rfl)

/-- C7: a file whose declared media type is neither the PDF type nor one of
the two Word-document types yields empty text and no warning; a PDF whose
extraction raises yields the text accumulated before the exception plus a
warning; a Word document whose extraction raises yields empty text plus a
warning.  `parse_resume` is a total function of the model: no exception
escapes the extractor boundary. -/
theorem claim_c7_parse_resume (file : UploadedFile) :
    (file.type ≠ "application/pdf" →
     file.type ≠ "application/vnd.openxmlformats-officedocument.wordprocessingml.document" →
     file.type ≠ "application/msword" →
     parse_resume file = ("", false)) ∧
    (file.type = "application/pdf" → file.pdf.raises = true →
     parse_resume file = (pdfText file.pdf.pages, true)) ∧
    ((file.type = "application/vnd.openxmlformats-officedocument.wordprocessingml.document" ∨
      file.type = "application/msword") →
     file.docx = Except.error () →
     parse_resume file = ("", true)) := by
  refine ⟨?_, ?_, ?_⟩
  · intro h1 h2 h3
    simp [parse_resume, h1, h2, h3]
  · intro h1 h2
    simp [parse_resume, h1, h2]
  · intro h1 h2
    rcases h1 with h1 | h1 <;> simp [parse_resume, h1, h2]

/-- C7 witness: the theorem applied at three concrete files — an
unsupported type, a PDF raising after one good page, one `None` page and
one page whose extracted text is the falsy empty string (the latter two
contribute nothing to the accumulated text), and a Word document whose
extraction raises. -/
theorem claim_c7_parse_resume_witness :
    parse_resume ⟨"text/plain", ⟨[some "x"], false⟩, Except.ok "y"⟩ = ("", false) ∧
    parse_resume ⟨"application/pdf", ⟨[some "a", none, some ""], true⟩, Except.ok "y"⟩ =
      ("a\n", true) ∧
    parse_resume ⟨"application/msword", ⟨[], false⟩, Except.error ()⟩ = ("", true) := by
  refine ⟨(claim_c7_parse_resume _).1 (by decide) (by decide) (by decide), ?_, ?_⟩
  · have h := (claim_c7_parse_resume
      ⟨"application/pdf", ⟨[some "a", none, some ""], true⟩, Except.ok "y"⟩).2.1 rfl rfl
    exact h.trans (by rfl)
  · exact (claim_c7_parse_resume _).2.2 (Or.inr rfl) rfl

/-- C8: the manual-skills list is exactly the comma-separated tokens of the
input, each stripped, those empty after stripping dropped, in their
original order (stated as: it is the stripped token list filtered to the
non-empty entries, hence an order-preserving sublist of the stripped
tokens, and every returned entry is non-empty with no leading or trailing
whitespace). -/
theorem claim_c8_manual_skills (input : String) :
    manualSkills input =
      ((pySplit ',' input).map pyStrip).filter (fun s => !s.isEmpty) ∧
    List.Sublist (manualSkills input) ((pySplit ',' input).map pyStrip) ∧
    ∀ s ∈ manualSkills input, s.isEmpty = false ∧ noLeadWs s ∧ noTrailWs s := by
  refine ⟨rfl, List.filter_sublist _, ?_⟩
  intro s hs
  obtain ⟨hmap, hcond⟩ := List.mem_filter.1 hs
  obtain ⟨tok, _, hts⟩ := List.mem_map.1 hmap
  subst hts
  refine ⟨by simpa using hcond, ?_, ?_⟩
  · intro c hc
    exact stripL_noLead tok.data c hc
  · intro c hc
    exact stripL_noTrail tok.data c hc

/-- C8 witness: the theorem applied at the concrete input `" a , ,b "`,
instantiated at its first returned skill `"a"`. -/
theorem claim_c8_manual_skills_witness :
    manualSkills " a , ,b " = ["a", "b"] ∧
    "a".isEmpty = false ∧ noLeadWs "a" ∧ noTrailWs "a" := by
  have h := (claim_c8_manual_skills " a , ,b ").2.2 "a" (by decide)
  exact ⟨by decide, h.1, h.2.1, h.2.2⟩

/-- C3: for every textual service reply, `extract_skills` returns a list
every element of which is a string (the empty list included, and never an
exception); and whenever the reply parses as JSON but the parsed value is
not a list of strings, the result is the warning together with the empty
list, never the mis-shaped value. -/
theorem claim_c3_extract_skills_shape (t : String) :
    (∃ l : List String, ∃ w : Bool,
      extract_skills (Except.ok t) = Except.ok (JVal.arr (l.map JVal.str), w)) ∧
    (∀ v, json_loads (cleanReply t) = some v → isStrList v = false →
      extract_skills (Except.ok t) = Except.ok (JVal.arr [], true)) := by
  constructor
  · cases hj : json_loads (cleanReply t) with
    | none => exact ⟨[], true, by simp [extract_skills, hj]⟩
    | some v =>
      by_cases hs : isStrList v = true
      · obtain ⟨l, hl⟩ := isStrList_shape v hs
        subst hl
        exact ⟨l, false, by simp [extract_skills, hj, hs]⟩
      · have hs' : isStrList v = false := by
          cases hq : isStrList v
          · rfl
          · exact absurd hq hs
        exact ⟨[], true, by simp [extract_skills, hj, hs']⟩
  · intro v hj hs
    simp [extract_skills, hj, hs]

/-- C3 witness: the theorem applied at the concrete reply `"[true]"`,
which parses as JSON but is not a list of strings. -/
theorem claim_c3_extract_skills_shape_witness :
    json_loads (cleanReply "[true]") = some (JVal.arr [JVal.bool true]) ∧
    isStrList (JVal.arr [JVal.bool true]) = false ∧
    extract_skills (Except.ok "[true]") = Except.ok (JVal.arr [], true) :=
  ⟨rfl, rfl, (claim_c3_extract_skills_shape "[true]").2 (JVal.arr [JVal.bool true]) rfl rfl⟩

/-- C9: when the cleaned reply parses as a JSON object, `generate_roadmap`
returns the values of the keys `career_advice` and `roadmap_svg` with `""`
substituted for each absent key, without warning and without the fallback;
when it parses as JSON but not as an object, the fallback `("", "")` is
returned (with the warning of the except branch, which catches the
`AttributeError` that `data.get` raises). -/
theorem claim_c9_generate_roadmap (t : String) :
    (∀ kvs, json_loads (cleanReply t) = some (JVal.obj kvs) →
      generate_roadmap (Except.ok t) =
        ((pyGet kvs "career_advice" (JVal.str ""), pyGet kvs "roadmap_svg" (JVal.str "")),
          false)) ∧
    (∀ v, json_loads (cleanReply t) = some v → (∀ kvs, v ≠ JVal.obj kvs) →
      generate_roadmap (Except.ok t) = ((JVal.str "", JVal.str ""), true)) := by
  constructor
  · intro kvs hj
    simp [generate_roadmap, hj]
  · intro v hj hne
    cases v with
    | obj kvs => exact absurd rfl (hne kvs)
    | null => simp [generate_roadmap, hj]
    | bool b => simp [generate_roadmap, hj]
    | num q => simp [generate_roadmap, hj]
    | inf b => simp [generate_roadmap, hj]
    | nan => simp [generate_roadmap, hj]
    | str s => simp [generate_roadmap, hj]
    | arr xs => simp [generate_roadmap, hj]

/-- C9 witness: the theorem applied at a concrete object reply with only
`career_advice` present (so `roadmap_svg` falls back to `""`), and at the
concrete non-object JSON reply `"[true]"`. -/
theorem claim_c9_generate_roadmap_witness :
    generate_roadmap (Except.ok "\x7b\"career_advice\": \"A\"\x7d") =
      ((JVal.str "A", JVal.str ""), false) ∧
    generate_roadmap (Except.ok "[true]") = ((JVal.str "", JVal.str ""), true) := by
  constructor
  · have h := (claim_c9_generate_roadmap "\x7b\"career_advice\": \"A\"\x7d").1
      [("career_advice", JVal.str "A")] rfl
    exact h.trans (by rfl)
  · exact (claim_c9_generate_roadmap "[true]").2 (JVal.arr [JVal.bool true]) rfl
      (fun kvs h => JVal.noConfusion h)

/-- C1: for every sequence of service behaviours, the retry wrapper makes
at most `retries + 1` calls to `generate_roadmap` (3 with the source's
default `retries = 2`); it returns the pair produced by the first call
whose `career_advice` is truthy (for string values: non-empty), taking
that call's `roadmap_svg` as-is; and when every call yields falsy advice
it returns `("", "")` after exactly `retries + 1` calls. -/
theorem claim_c1_roadmap_retry (svc : Nat → Except Unit String) (retries : Nat) :
    (generate_roadmap_with_retry svc retries).2 ≤ retries + 1 ∧
    ((∃ j, j ≤ retries ∧
        pyTruthy (generate_roadmap (svc j)).1.1 = true ∧
        (∀ i, i < j → pyTruthy (generate_roadmap (svc i)).1.1 = false) ∧
        generate_roadmap_with_retry svc retries = ((generate_roadmap (svc j)).1, j + 1)) ∨
      ((∀ i, i ≤ retries → pyTruthy (generate_roadmap (svc i)).1.1 = false) ∧
        generate_roadmap_with_retry svc retries =
          ((JVal.str "", JVal.str ""), retries + 1))) := by
  obtain ⟨ha, hb⟩ := retryLoop_spec (fun i => (generate_roadmap (svc i)).1) (retries + 1) 0
  constructor
  · simpa [generate_roadmap_with_retry] using ha
  · rcases hb with ⟨j, _, hj2, hjt, hjmin, heq⟩ | ⟨hall, heq⟩
    · exact Or.inl ⟨j, by omega, hjt, fun i hi => hjmin i (by omega) hi,
        by simpa [generate_roadmap_with_retry] using heq⟩
    · exact Or.inr ⟨fun i hi => hall i (by omega) (by omega),
        by simpa [generate_roadmap_with_retry] using heq⟩

/-- C1 witness: with a service whose replies never contain usable advice,
the wrapper returns `("", "")` after exactly 3 calls (the default budget). -/
theorem claim_c1_roadmap_retry_witness :
    generate_roadmap_with_retry (fun _ => Except.ok "[true]") 2 =
      ((JVal.str "", JVal.str ""), 3) := by
  rcases (claim_c1_roadmap_retry (fun _ => Except.ok "[true]") 2).2 with
    ⟨j, _, hjt, _, _⟩ | ⟨_, heq⟩
  · have hfalse :
        pyTruthy (generate_roadmap ((fun _ => Except.ok "[true]") j : Except Unit String)).1.1
          = false := rfl
    rw [hfalse] at hjt
    exact Bool.noConfusion hjt
  · exact heq

theorem render_split (m : YtMatch) :
    ((∃ r, m.render = "http://".data ++ r) ∨ (∃ r, m.render = "https://".data ++ r)) ∧
    (∃ s r, m.render = s ++ "youtube.com/watch?v=".data ++ r ∨
            m.render = s ++ "youtube.com/playlist?list=".data ++ r ∨
            m.render = s ++ "youtu.be/watch?v=".data ++ r ∨
            m.render = s ++ "youtu.be/playlist?list=".data ++ r) := by
  obtain ⟨sec, www, host, wat, vid⟩ := m
  constructor
  · cases sec
    · exact Or.inl ⟨(if www then "www.".data else []) ++
        (if host then "youtube.com".data else "youtu.be".data) ++ "/".data ++
        (if wat then "watch?v=".data else "playlist?list=".data) ++ vid,
        by cases www <;> cases host <;> cases wat <;> rfl⟩
    · exact Or.inr ⟨(if www then "www.".data else []) ++
        (if host then "youtube.com".data else "youtu.be".data) ++ "/".data ++
        (if wat then "watch?v=".data else "playlist?list=".data) ++ vid,
        by cases www <;> cases host <;> cases wat <;> rfl⟩
  · cases host <;> cases wat
    · exact ⟨(if sec then "https://".data else "http://".data) ++
        (if www then "www.".data else []), vid,
        Or.inr (Or.inr (Or.inr (by cases sec <;> cases www <;> rfl)))⟩
    · exact ⟨(if sec then "https://".data else "http://".data) ++
        (if www then "www.".data else []), vid,
        Or.inr (Or.inr (Or.inl (by cases sec <;> cases www <;> rfl)))⟩
    · exact ⟨(if sec then "https://".data else "http://".data) ++
        (if www then "www.".data else []), vid,
        Or.inr (Or.inl (by cases sec <;> cases www <;> rfl))⟩
    · exact ⟨(if sec then "https://".data else "http://".data) ++
        (if www then "www.".data else []), vid,
        Or.inl (by cases sec <;> cases www <;> rfl)⟩

theorem recommend_courses_mem (t u : String)
    (hu : u ∈ (recommend_courses (Except.ok t)).1) : YtUrlShape u := by
  have hr : (recommend_courses (Except.ok t)).1 =
      ((ytFindall (t.data.length + 1) t.data).filter
        (fun u => pyIn "youtube.com" u || pyIn "youtu.be" u)).dedup := rfl
  rw [hr] at hu
  exact ytFindall_mem _ _ u (List.mem_filter.1 (List.mem_dedup.1 hu)).1

/-- C5: the course list returned for any textual reply consists of
pairwise-distinct strings (a URL occurring several times in the reply
appears at most once), and every element matches the YouTube-style URL
pattern of the source's regex. -/
theorem claim_c5_recommend_courses (t : String) :
    ((recommend_courses (Except.ok t)).1).Nodup ∧
    ∀ u ∈ (recommend_courses (Except.ok t)).1, YtUrlShape u := by
  constructor
  · have hr : (recommend_courses (Except.ok t)).1 =
        ((ytFindall (t.data.length + 1) t.data).filter
          (fun u => pyIn "youtube.com" u || pyIn "youtu.be" u)).dedup := rfl
    rw [hr]
    exact List.nodup_dedup _
  · intro u hu
    exact recommend_courses_mem t u hu

/-- C5 witness: the theorem applied at a reply containing the same URL
twice — the result holds it once, and it matches the pattern. -/
theorem claim_c5_recommend_courses_witness :
    (recommend_courses
      (Except.ok "https://www.youtube.com/watch?v=abc https://www.youtube.com/watch?v=abc")).1 =
      ["https://www.youtube.com/watch?v=abc"] ∧
    YtUrlShape "https://www.youtube.com/watch?v=abc" := by
  refine ⟨by rfl, (claim_c5_recommend_courses
    "https://www.youtube.com/watch?v=abc https://www.youtube.com/watch?v=abc").2
      "https://www.youtube.com/watch?v=abc" ?_⟩
  rw [show (recommend_courses
    (Except.ok "https://www.youtube.com/watch?v=abc https://www.youtube.com/watch?v=abc")).1 =
    ["https://www.youtube.com/watch?v=abc"] from rfl]
  exact List.mem_singleton.2 rfl

/-- C10: every URL in a returned course list begins with `http://` or
`https://` and contains `youtube.com` or `youtu.be` immediately followed
by `/watch?v=` or `/playlist?list=`; and the concrete reply containing
only the bare short link `https://youtu.be/dQw4w9WgXcQ` yields the empty
list — the bare link is absent from the result. -/
theorem claim_c10_course_url_format :
    (∀ t : String, ∀ u ∈ (recommend_courses (Except.ok t)).1,
      ((∃ r, u.data = "http://".data ++ r) ∨ (∃ r, u.data = "https://".data ++ r)) ∧
      (∃ s r, u.data = s ++ "youtube.com/watch?v=".data ++ r ∨
              u.data = s ++ "youtube.com/playlist?list=".data ++ r ∨
              u.data = s ++ "youtu.be/watch?v=".data ++ r ∨
              u.data = s ++ "youtu.be/playlist?list=".data ++ r)) ∧
    recommend_courses (Except.ok "Try https://youtu.be/dQw4w9WgXcQ today") = ([], false) := by
  constructor
  · intro t u hu
    obtain ⟨m, _, _, hu'⟩ := recommend_courses_mem t u hu
    subst hu'
    exact render_split m
  · rfl

/-- C10 witness: the theorem's first part instantiated at a concrete reply
and its one returned URL. -/
theorem claim_c10_course_url_format_witness :
    ∃ s r,
      ("https://www.youtube.com/watch?v=ab".data =
        s ++ "youtube.com/watch?v=".data ++ r) ∨
      ("https://www.youtube.com/watch?v=ab".data =
        s ++ "youtube.com/playlist?list=".data ++ r) ∨
      ("https://www.youtube.com/watch?v=ab".data =
        s ++ "youtu.be/watch?v=".data ++ r) ∨
      ("https://www.youtube.com/watch?v=ab".data =
        s ++ "youtu.be/playlist?list=".data ++ r) := by
  refine (claim_c10_course_url_format.1 "https://www.youtube.com/watch?v=ab"
    "https://www.youtube.com/watch?v=ab" ?_).2
  rw [show (recommend_courses (Except.ok "https://www.youtube.com/watch?v=ab")).1 =
    ["https://www.youtube.com/watch?v=ab"] from rfl]
  exact List.mem_singleton.2 rfl
